import Mathlib

/-!
Shallow embedding of the event-dispatch engine of `src/Profiler.py`
(classes `ProcessProfile` and `ThreadProfile`) from the thread-graph
repository, together with theorems about its behaviour.

Modelling conventions:
* CPython frame/function objects are records carrying only the fields the
  profiler reads (`id(frame)`, `f_code.co_filename`, `f_code.co_name`,
  `f_lineno`, `arg.__module__`, `arg.__name__`).
* `_getProcessMemory()` (the pympler probe) and `time()` are modelled as
  oracles: lists of successive return values carried in the state.
* Python dicts keyed by frame ids / thread names are association lists with
  overwrite-on-insert semantics.
* Streams are modelled by the append-only list of lines written to them.
* Python truthiness of the optional arguments of `_handleIn`/`_handleOut`
  (`fid if fid else id(frame)` treats both `None` and `0` as falsy, and
  similarly for strings) is modelled explicitly.
-/

namespace ThreadGraph

/-- The event kinds delivered by CPython's profile hook. -/
inductive PEvent
  | call
  | ret
  | exc
  | ccall
  | cret
  | cexc
deriving DecidableEq, Repr

/-- The fields of a CPython frame object that `ThreadProfile` reads:
`id(frame)`, `frame.f_code.co_filename`, `frame.f_code.co_name` and
`frame.f_lineno`. -/
structure PyFrame where
  fid : Int
  filename : String
  funcname : String
  lineno : Int
deriving DecidableEq, Repr

/-- The fields of the C-function object passed as `arg` on `c_call` /
`c_return` / `c_exception` events: `arg.__module__` (which may be `None`)
and `arg.__name__`. -/
structure CArg where
  module : Option String
  name : String
deriving DecidableEq, Repr

/-- One event delivered to the profile hook: the executing frame, the event
kind, and the `arg` payload (present for C events). -/
structure TEvent where
  frame : PyFrame
  event : PEvent
  arg : Option CArg
deriving DecidableEq, Repr

/-- The `profile` constructor argument of `ThreadProfile`: which dispatcher
table is selected ("c", "python" or "both"). -/
inductive ProfileMode
  | c
  | python
  | both
deriving DecidableEq, Repr

/-- Python dict lookup on an association list. -/
def pyLookup {κ α : Type} [DecidableEq κ] (l : List (κ × α)) (k : κ) : Option α :=
  match l with
  | [] => none
  | (k', v) :: rest => if k' = k then some v else pyLookup rest k

/-- Python dict assignment `d[k] = v`: overwrite any existing binding. -/
def pyInsert {κ α : Type} [DecidableEq κ] (l : List (κ × α)) (k : κ) (v : α) :
    List (κ × α) :=
  (k, v) :: l.filter (fun p => p.1 ≠ k)

/-- Python dict deletion `del d[k]`. -/
def pyErase {κ α : Type} [DecidableEq κ] (l : List (κ × α)) (k : κ) :
    List (κ × α) :=
  l.filter (fun p => p.1 ≠ k)

/-- Python's `sep.join(parts)`. -/
def pyJoin (sep : String) : List String → String
  | [] => ""
  | [x] => x
  | x :: y :: xs => x ++ sep ++ pyJoin sep (y :: xs)

/-- A string of `n` spaces. -/
def mkSpaces : Nat → String
  | 0 => ""
  | n + 1 => " " ++ mkSpaces n

/-- The `fid if fid else default` idiom of `_handleIn`/`_handleOut`:
`None` and `0` are falsy, so both fall back to the default (`id(frame)`). -/
def pyDefaultFid (fid : Option Int) (dflt : Int) : Int :=
  match fid with
  | some v => if v ≠ 0 then v else dflt
  | none => dflt

/-- Python's `s.startswith(pre)` (an empty filter accepts everything). -/
def pyStartsWith (s pre : String) : Bool :=
  List.isPrefixOf pre.data s.data

/-- The `name if name else default` idiom for strings: `None` and `""` are
falsy. -/
def pyDefaultStr (s : Option String) (dflt : String) : String :=
  match s with
  | some v => if v ≠ "" then v else dflt
  | none => dflt

/-- The state of one `ThreadProfile` instance (plus the oracles for memory
readings and timestamps, and the lines written to its two streams). -/
structure TState where
  /-- `self._frames`: call identity ↦ (memory baseline, name, filename). -/
  frames : List (Int × (Int × String × String))
  /-- `self._sleep_accounting`. -/
  sleep_accounting : Int
  /-- `self._sleep_frames`: side table for in-flight blocking calls. -/
  sleep_frames : List (Int × Int)
  /-- `self._stack_level`. -/
  stack_level : Int
  /-- `self._file_filter`. -/
  file_filter : String
  /-- `self._mem`. -/
  mem : Bool
  /-- `self._times`. -/
  times : Bool
  /-- `self._stack`. -/
  stack : Bool
  /-- `self._sleep_trak`. -/
  sleep_trak : Bool
  /-- The dispatcher table selected at construction. -/
  profile : ProfileMode
  /-- Oracle: successive raw values returned by `_getProcessMemory()`. -/
  readings : List Int
  /-- Oracle: successive values returned by `str(time())`. -/
  stamps : List String
  /-- Lines written to `self._mem_stream`, in order. -/
  mem_lines : List String
  /-- Lines written to `self._stack_stream`, in order. -/
  stack_lines : List String
deriving DecidableEq, Repr

/-- Consume the next raw memory reading (`_getProcessMemory()`). -/
def takeReading (st : TState) : Int × TState :=
  (st.readings.headD 0, { st with readings := st.readings.tail })

/-- Consume the next timestamp (`str(time())`). -/
def takeStamp (st : TState) : String × TState :=
  (st.stamps.headD "0", { st with stamps := st.stamps.tail })

/-- `ThreadProfile._getMemory`: the raw probe value minus
`self._sleep_accounting`. -/
def tpGetMemory (st : TState) : Int × TState :=
  let (r, st') := takeReading st
  (r - st'.sleep_accounting, st')

/-- The `now` prefix `str(time()) + "#" if self._times else ""`
(`time()` is only consumed when timestamps are enabled). -/
def takeNow (st : TState) : String × TState :=
  if st.times then
    let (t, st') := takeStamp st
    (t ++ "#", st')
  else
    ("", st)

/-- `ThreadProfile._handleIn`. -/
def tpHandleIn (st : TState) (frame : PyFrame) (fid : Option Int)
    (name : Option String) (filename : Option String) : TState :=
  let filename := pyDefaultStr filename frame.filename
  let name := pyDefaultStr name frame.funcname
  let fid := pyDefaultFid fid frame.fid
  if ¬ pyStartsWith filename st.file_filter then st
  else
    let st1 :=
      if st.stack then
        let (now, sa) := takeNow st
        let line := pyJoin " " (List.replicate sa.stack_level.toNat "") ++ now ++
          filename ++ ":" ++ toString frame.lineno ++ ":" ++ name
        { sa with stack_lines := sa.stack_lines ++ [line] }
      else st
    let st2 := { st1 with stack_level := st1.stack_level + 1 }
    let (base, st3) := if st2.mem then tpGetMemory st2 else (0, st2)
    { st3 with frames := pyInsert st3.frames fid (base, name, filename) }

/-- `ThreadProfile._handleOut`. -/
def tpHandleOut (st : TState) (frame : PyFrame) (fid : Option Int) : TState :=
  let fid := pyDefaultFid fid frame.fid
  match pyLookup st.frames fid with
  | none => st
  | some (mem_before, name, filename) =>
    let st1 := { st with
      stack_level := st.stack_level - 1,
      frames := pyErase st.frames fid }
    if st1.mem then
      let (mem_after, st2) := tpGetMemory st1
      let delta := mem_after - mem_before
      let (now, st3) := takeNow st2
      let line := now ++ filename ++ ":" ++ toString frame.lineno ++ ":" ++
        name ++ "=>" ++ toString delta
      { st3 with mem_lines := st3.mem_lines ++ [line] }
    else st1

/-- `ThreadProfile._handleCIn`: forwards to `_handleIn` with the negated
frame address, the C function's name and its module. -/
def tpHandleCIn (st : TState) (frame : PyFrame) (arg : CArg) : TState :=
  tpHandleIn st frame (some (-frame.fid)) (some arg.name) arg.module

/-- `ThreadProfile._handleCOut`: forwards to `_handleOut` with the negated
frame address. -/
def tpHandleCOut (st : TState) (frame : PyFrame) : TState :=
  tpHandleOut st frame (some (-frame.fid))

/-- Membership of an event kind in the dispatcher table selected by the
`profile` argument. -/
def handlesEvent (m : ProfileMode) (e : PEvent) : Bool :=
  match m, e with
  | .c, .ccall | .c, .cret | .c, .cexc => true
  | .c, _ => false
  | .python, .call | .python, .ret | .python, .exc => true
  | .python, _ => false
  | .both, _ => true

/-- `self._sleep_triggers` membership:
`{"time": {"sleep"}, "/usr/lib/python2.6/threading.py": {"acquire"}, None: {"acquire"}}`. -/
def isSleepTrigger (module : Option String) (name : String) : Bool :=
  match module with
  | some "time" => name == "sleep"
  | some "/usr/lib/python2.6/threading.py" => name == "acquire"
  | none => name == "acquire"
  | some _ => false

/-- The blocking-trigger test of `ThreadProfile._dispatch` on the event's
`arg` (accessing `arg.__module__` requires `arg` to be present). -/
def evIsTrigger (arg : Option CArg) : Bool :=
  match arg with
  | some a => isSleepTrigger a.module a.name
  | none => false

/-- The sleep-accounting prologue of `ThreadProfile._dispatch`. -/
def tpSleepStep (st : TState) (ev : TEvent) : TState :=
  if st.sleep_trak && (ev.event == .ccall) && evIsTrigger ev.arg then
    let (m, st') := tpGetMemory st
    { st' with sleep_frames := pyInsert st'.sleep_frames ev.frame.fid m }
  else if st.sleep_trak && (ev.event == .cret || ev.event == .cexc) &&
      (pyLookup st.sleep_frames ev.frame.fid).isSome then
    match pyLookup st.sleep_frames ev.frame.fid with
    | some mem_before =>
      let st1 := { st with sleep_frames := pyErase st.sleep_frames ev.frame.fid }
      let (mem_after, st2) := tpGetMemory st1
      { st2 with sleep_accounting := st2.sleep_accounting + (mem_after - mem_before) }
    | none => st
  else st

/-- `ThreadProfile._dispatch`: the sleep-accounting prologue followed by the
dispatcher-table lookup. -/
def tpDispatch (st : TState) (ev : TEvent) : TState :=
  let st := tpSleepStep st ev
  if handlesEvent st.profile ev.event then
    match ev.event with
    | .call => tpHandleIn st ev.frame none none none
    | .ret | .exc => tpHandleOut st ev.frame none
    | .ccall =>
      match ev.arg with
      | some a => tpHandleCIn st ev.frame a
      | none => st
    | .cret | .cexc => tpHandleCOut st ev.frame
  else st

/-- Run a sequence of events through `ThreadProfile._dispatch`. -/
def runEvents (evs : List TEvent) (st : TState) : TState :=
  evs.foldl tpDispatch st

/-- `ThreadProfile.__init__` followed by the coordinator's
`setFilter(self._filter)` call, with the two oracles supplied. -/
def mkThreadProfile (profile : ProfileMode) (track_memory track_times track_stack track_sleep : Bool)
    (filter : String) (readings : List Int) (stamps : List String) : TState :=
  { frames := []
    sleep_accounting := 0
    sleep_frames := []
    stack_level := 0
    file_filter := filter
    mem := track_memory
    times := track_times
    stack := track_stack
    sleep_trak := track_sleep
    profile := profile
    readings := readings
    stamps := stamps
    mem_lines := []
    stack_lines := [] }

/-- `ThreadProfile.setFilter`. -/
def tpSetFilter (st : TState) (filter : String) : TState :=
  { st with file_filter := filter }

/-- `ThreadProfile.trackMemory`. -/
def tpTrackMemory (st : TState) (enable : Bool) : TState :=
  { st with mem := enable }

/-- `ThreadProfile.trackStack`. -/
def tpTrackStack (st : TState) (enable : Bool) : TState :=
  { st with stack := enable }

/-- `ThreadProfile.logTimestamps`. -/
def tpLogTimestamps (st : TState) (enable : Bool) : TState :=
  { st with times := enable }

/-- The effective call identity `_handleIn` assigns to a managed (Python)
call at frame address `addr`: the default `id(frame)`. -/
def managedCallId (addr : Int) : Int :=
  pyDefaultFid none addr

/-- The effective call identity `_handleCIn` assigns to a native (C) call
observed from the frame at address `addr`: it passes `-id(frame)`, which
`_handleIn` keeps unless it is falsy (i.e. `0`). -/
def nativeCallId (addr : Int) : Int :=
  pyDefaultFid (some (-addr)) addr

/-! ## The process-level coordinator (`ProcessProfile`) -/

/-- The environment of one call to `ProcessProfile._dispatch`: what the
host and the outside world look like at that instant.  The `fail*` flags
are oracles for exceptions raised inside the `try` by the fallible
primitives (stream I/O, the memory probe, the per-thread stream factory). -/
structure ProcEnv where
  /-- `getpid is None`: the interpreter is tearing down. -/
  teardown : Bool
  /-- The value of `getpid()`. -/
  pid : Nat
  /-- Reopening the process stream after a fork raises. -/
  failFork : Bool
  /-- Writing/flushing the process-memory line raises. -/
  failSample : Bool
  /-- Creating the thread collector or forwarding the event raises. -/
  failThread : Bool
  /-- The value `_getProcessMemory()` would return for the process line. -/
  memReading : Int
  /-- The value `str(time())` would return for the process line. -/
  stamp : String
  /-- The current thread's name. -/
  threadName : String
  /-- The event being dispatched. -/
  tevent : TEvent
  /-- Oracle handed to a freshly created collector: its memory readings. -/
  newReadings : List Int
  /-- Oracle handed to a freshly created collector: its timestamps. -/
  newStamps : List String
deriving DecidableEq, Repr

/-- The state of one `ProcessProfile` instance.  `proc_lines` is the
append-only log of every line ever written to a process-memory stream
(it is not cleared when the stream is reopened after a fork). -/
structure ProcState where
  /-- `self._main_pid`. -/
  main_pid : Nat
  /-- `self._profile_forked`. -/
  profile_forked : Bool
  /-- `self._proc_mem_check`. -/
  proc_mem_check : Nat
  /-- `self._proc_mem_freq` (`none` models Python `None`). -/
  proc_mem_freq : Option Nat
  /-- Default `self._filter` for new collectors. -/
  filter : String
  /-- Default `self._mem`. -/
  mem : Bool
  /-- Default `self._times`. -/
  times : Bool
  /-- Default `self._sleep`. -/
  sleep : Bool
  /-- Default `self._stack`. -/
  stack : Bool
  /-- `self._profile`. -/
  profile : ProfileMode
  /-- `self._threads`: thread name ↦ collector state. -/
  threads : List (String × TState)
  /-- Log of process-memory lines written so far. -/
  proc_lines : List String
  /-- Whether `self.disable()` has been called. -/
  disabled : Bool
deriving DecidableEq, Repr

/-- What `ProcessProfile._dispatch` returns: the live continuation
(`self._dispatch`) or `None`. -/
inductive DispatchRet
  | cont
  | stop
deriving DecidableEq, Repr

/-- The outcome of one step inside the `try` block: normal completion,
an exception in flight, or an early `return None` after `disable()`. -/
inductive StepRes
  | ok (st : ProcState)
  | errored (st : ProcState)
  | stopped (st : ProcState)
deriving DecidableEq, Repr

/-- Step (a) of `_dispatch`: the fork check. -/
def forkStep (env : ProcEnv) (st : ProcState) : StepRes :=
  if env.pid ≠ st.main_pid then
    if st.profile_forked then
      if env.failFork then .errored st
      else .ok { st with threads := [], main_pid := env.pid }
    else .stopped { st with disabled := true }
  else .ok st

/-- Python truthiness of `self._proc_mem_freq` (`None` and `0` are falsy). -/
def freqTruthy : Option Nat → Bool
  | some n => n ≠ 0
  | none => false

/-- Step (b) of `_dispatch`: sampled process-memory logging. -/
def sampleStep (env : ProcEnv) (st : ProcState) : StepRes :=
  if freqTruthy st.proc_mem_freq then
    let n := st.proc_mem_freq.getD 1
    if st.proc_mem_check = 0 then
      if env.failSample then .errored st
      else
        let stamp := if st.times then env.stamp ++ "#" else ""
        let line := stamp ++ toString env.memReading
        .ok { st with
          proc_lines := st.proc_lines ++ [line],
          proc_mem_check := (st.proc_mem_check + 1) % n }
    else .ok { st with proc_mem_check := (st.proc_mem_check + 1) % n }
  else .ok st

/-- Step (c) of `_dispatch`: resolve or lazily create the calling thread's
collector and forward the event to it. -/
def threadStep (env : ProcEnv) (st : ProcState) : StepRes :=
  if env.failThread then .errored st
  else
    let (tst, st1) :=
      match pyLookup st.threads env.threadName with
      | some t => (t, st)
      | none =>
        let t := mkThreadProfile st.profile st.mem st.times st.stack st.sleep
          st.filter env.newReadings env.newStamps
        (t, { st with threads := pyInsert st.threads env.threadName t })
    let t' := tpDispatch tst env.tevent
    .ok { st1 with threads := pyInsert st1.threads env.threadName t' }

/-- `ProcessProfile._dispatch`: the teardown check, then steps (a)-(c)
inside a catch-all `try`; any exception is discarded and the live
continuation returned. -/
def procDispatch (env : ProcEnv) (st : ProcState) : ProcState × DispatchRet :=
  if env.teardown then ({ st with disabled := true }, .stop)
  else
    match forkStep env st with
    | .stopped st' => (st', .stop)
    | .errored st' => (st', .cont)
    | .ok st' =>
      match sampleStep env st' with
      | .stopped st'' => (st'', .stop)
      | .errored st'' => (st'', .cont)
      | .ok st'' =>
        match threadStep env st'' with
        | .stopped st3 => (st3, .stop)
        | .errored st3 => (st3, .cont)
        | .ok st3 => (st3, .cont)

/-- Run a sequence of `_dispatch` calls, keeping only the state. -/
def procRun (envs : List ProcEnv) (st : ProcState) : ProcState :=
  envs.foldl (fun s e => (procDispatch e s).1) st

/-- `ProcessProfile.setProcessMemoryFrequence`. -/
def ppSetProcessMemoryFrequence (st : ProcState) (freq : Option Nat) : ProcState :=
  { st with proc_mem_freq := freq }

/-- `ProcessProfile.setFilter`: update the default and re-apply to every
registered collector. -/
def ppSetFilter (st : ProcState) (filter : String) : ProcState :=
  { st with
    filter := filter,
    threads := st.threads.map (fun p => (p.1, tpSetFilter p.2 filter)) }

/-- `ProcessProfile.trackMemory`. -/
def ppTrackMemory (st : ProcState) (enable : Bool) : ProcState :=
  { st with
    mem := enable,
    threads := st.threads.map (fun p => (p.1, tpTrackMemory p.2 enable)) }

/-- `ProcessProfile.trackSleeps`: as written in the source, it assigns
`self._mem = enable` and calls `thread.trackMemory(enable)` on every
registered collector. -/
def ppTrackSleeps (st : ProcState) (enable : Bool) : ProcState :=
  { st with
    mem := enable,
    threads := st.threads.map (fun p => (p.1, tpTrackMemory p.2 enable)) }

/-- `ProcessProfile.trackStack`. -/
def ppTrackStack (st : ProcState) (enable : Bool) : ProcState :=
  { st with
    stack := enable,
    threads := st.threads.map (fun p => (p.1, tpTrackStack p.2 enable)) }

/-- `ProcessProfile.logTimestamps`. -/
def ppLogTimestamps (st : ProcState) (enable : Bool) : ProcState :=
  { st with
    times := enable,
    threads := st.threads.map (fun p => (p.1, tpLogTimestamps p.2 enable)) }

/-! ## `ThreadProfile.closeStreams` -/

/-- A writable stream as `closeStreams` sees it: whether calling `close()`
on it raises `IOError`, whether `close()` has been invoked on it, and
whether it completed successfully. -/
structure StreamH where
  failClose : Bool
  attempted : Bool
  closed : Bool
deriving DecidableEq, Repr

/-- The two streams owned by a `ThreadProfile` (`None` when the
corresponding tracking was disabled at construction). -/
structure Streams where
  mem_stream : Option StreamH
  stack_stream : Option StreamH
deriving DecidableEq, Repr

/-- One `close()` call: the stream after the call, and whether it raised. -/
def closeOne (s : StreamH) : StreamH × Bool :=
  if s.failClose then ({ s with attempted := true }, true)
  else ({ s with attempted := true, closed := true }, false)

/-- The second statement of the `try` block: `if self._stack_stream:
self._stack_stream.close()`.  Returns the state and whether it raised. -/
def closeStackStream (st : Streams) : Streams × Bool :=
  match st.stack_stream with
  | some s =>
    let (s', raised) := closeOne s
    ({ st with stack_stream := some s' }, raised)
  | none => (st, false)

/-- `ThreadProfile.closeStreams`: both closes in a single `try`, with
`except IOError: pass`.  An `IOError` from the first close aborts the
block (skipping the second close) and is swallowed. -/
def closeStreams (st : Streams) : Streams :=
  match st.mem_stream with
  | some m =>
    let (m', raised) := closeOne m
    let st1 := { st with mem_stream := some m' }
    if raised then st1
    else (closeStackStream st1).1
  | none => (closeStackStream st).1

/-! ## Concrete scenario inputs -/

/-- The underlying state of a `StepRes`. -/
def StepRes.state : StepRes → ProcState
  | .ok st => st
  | .errored st => st
  | .stopped st => st

/-- `ProcessProfile.__init__` (fresh coordinator state). -/
def mkProcessProfile (pid : Nat) (profile : ProfileMode) : ProcState :=
  { main_pid := pid
    profile_forked := false
    proc_mem_check := 0
    proc_mem_freq := some 1000
    filter := ""
    mem := true
    times := true
    sleep := true
    stack := false
    profile := profile
    threads := []
    proc_lines := []
    disabled := false }

/-- Scenario for the memory-delta claim: memory tracking on, timestamps
off, empty filter, fresh collector whose raw readings are
`1000, 1010, 1030, 1040`. -/
def c2Init : TState :=
  mkThreadProfile .both true false false true "" [1000, 1010, 1030, 1040] []

/-- The events `enter(a.py:10:f)`, `enter(a.py:11:g)`, `exit(g)`,
`exit(f)` on one thread. -/
def c2Events : List TEvent :=
  [ ⟨⟨1, "a.py", "f", 10⟩, .call, none⟩,
    ⟨⟨2, "a.py", "g", 11⟩, .call, none⟩,
    ⟨⟨2, "a.py", "g", 11⟩, .ret, none⟩,
    ⟨⟨1, "a.py", "f", 10⟩, .ret, none⟩ ]

/-- Scenario for the blocking-exclusion claim: sleep tracking on, memory
tracking on, raw readings `100, 100, 150, 150, 170`, profiling Python
events only. -/
def c3Init : TState :=
  mkThreadProfile .python true false false true "" [100, 100, 150, 150, 170] []

/-- An opening enter (consumes reading #1), a blocking-trigger bracket
(`time.sleep`, readings #2 and #3), then a non-trigger call spanning
readings #4 and #5. -/
def c3Events : List TEvent :=
  [ ⟨⟨9, "a.py", "h", 5⟩, .call, none⟩,
    ⟨⟨3, "b.py", "h", 7⟩, .ccall, some ⟨some "time", "sleep"⟩⟩,
    ⟨⟨3, "b.py", "h", 7⟩, .cret, some ⟨some "time", "sleep"⟩⟩,
    ⟨⟨4, "a.py", "f", 20⟩, .call, none⟩,
    ⟨⟨4, "a.py", "f", 20⟩, .ret, none⟩ ]

/-- A collector with sleep tracking and memory tracking enabled, for the
`trackSleeps` claim. -/
def c5Collector : TState :=
  mkThreadProfile .both true true false true "" [] []

/-- A coordinator holding one registered collector, for the `trackSleeps`
claim. -/
def c5Coord : ProcState :=
  { mkProcessProfile 42 .both with threads := [("T1", c5Collector)] }

/-- Scenario for the stack-indentation claim: stack tracking on, memory
tracking off, timestamps off, two nested enters. -/
def c6Init : TState :=
  mkThreadProfile .both false false true true "" [] []

/-- Two nested enters: `f` at depth 0, then `g` at depth 1. -/
def c6Events : List TEvent :=
  [ ⟨⟨1, "a.py", "f", 10⟩, .call, none⟩,
    ⟨⟨2, "a.py", "g", 11⟩, .call, none⟩ ]

/-- A fresh collector (empty frame map) for the unmatched-exit witness. -/
def c7St : TState :=
  mkThreadProfile .both true true false true "" [3, 4] ["9"]

/-- The effective call identity an exit or exception event is matched
against: `_handleOut` uses `id(frame)` for managed events, and
`_handleCOut` passes `-id(frame)` (subject to the falsy-zero fallback)
for native events. -/
def exitCallId (ev : TEvent) : Int :=
  match ev.event with
  | .ccall | .cret | .cexc => pyDefaultFid (some (-ev.frame.fid)) ev.frame.fid
  | _ => pyDefaultFid none ev.frame.fid

/-- A collector whose filter `"a.py"` rejects the `time` module, with
sleep tracking on and raw readings `100, 160`: the blocking-trigger
enter is kept out of the frame map but still opens a side-table
bracket. -/
def c7CEInit : TState :=
  mkThreadProfile .both true false false true "a.py" [100, 160] []

/-- The (filtered) blocking-trigger enter: `c_call` of `time.sleep`. -/
def c7CEEnter : TEvent :=
  ⟨⟨7, "caller.py", "h", 3⟩, .ccall, some ⟨some "time", "sleep"⟩⟩

/-- The matching `c_return` of the blocking trigger. -/
def c7CEExit : TEvent :=
  ⟨⟨7, "caller.py", "h", 3⟩, .cret, some ⟨some "time", "sleep"⟩⟩

/-- The collector state after the filtered trigger enter: empty frame
map, one in-flight side-table bracket. -/
def c7CEMid : TState :=
  tpDispatch c7CEInit c7CEEnter

/-- A benign dispatch environment (no teardown, matching pid, no
failures), used as a witness input. -/
def benignEnv : ProcEnv :=
  { teardown := false
    pid := 42
    failFork := false
    failSample := false
    failThread := false
    memReading := 7
    stamp := "1"
    threadName := "T1"
    tevent := ⟨⟨1, "a.py", "f", 10⟩, .call, none⟩
    newReadings := []
    newStamps := [] }

/-- A dispatch environment in which both the sampling write and the
collector forwarding raise, used as a witness input. -/
def failingEnv : ProcEnv :=
  { benignEnv with failSample := true, failThread := true }

/-- A dispatch environment observed during interpreter teardown. -/
def teardownEnv : ProcEnv :=
  { benignEnv with teardown := true }

/-- Streams whose memory stream raises `IOError` on `close()` and whose
stack stream closes fine. -/
def c9St : Streams :=
  ⟨some ⟨true, false, false⟩, some ⟨false, false, false⟩⟩

/-- The depth/frame-map relation maintained by a collector: the nesting
counter dominates the number of active frames. -/
def DepthInv (st : TState) : Prop :=
  (st.frames.length : Int) ≤ st.stack_level

/-! ## General lemmas about the embedded operations -/

theorem pyDefaultStr_none (d : String) : pyDefaultStr none d = d := rfl

theorem pyDefaultFid_none (d : Int) : pyDefaultFid none d = d := rfl

theorem pyInsert_length_le {κ α : Type} [DecidableEq κ] (l : List (κ × α)) (k : κ) (v : α) :
    (pyInsert l k v).length ≤ l.length + 1 := by
  unfold pyInsert
  simpa using Nat.succ_le_succ (List.length_filter_le _ l)

theorem pyLookup_some_erase_lt {κ α : Type} [DecidableEq κ] (l : List (κ × α)) (k : κ) (v : α)
    (h : pyLookup l k = some v) : (pyErase l k).length < l.length := by
  induction l with
  | nil => simp [pyLookup] at h
  | cons p rest ih =>
    unfold pyErase at ih ⊢
    by_cases hk : p.1 = k
    · simp [List.filter_cons, hk]
      exact Nat.lt_succ_of_le (List.length_filter_le _ rest)
    · unfold pyLookup at h
      rw [if_neg hk] at h
      have hrec := ih h
      simp [List.filter_cons, hk]
      simp only [ne_eq, decide_not] at hrec ⊢
      omega

theorem mkSpaces_one : mkSpaces 1 = " " := by
  unfold mkSpaces mkSpaces
  simp

theorem pyJoin_replicate_blank : ∀ n : Nat, pyJoin " " (List.replicate n "") = mkSpaces (n - 1)
  | 0 => rfl
  | 1 => rfl
  | (n + 2) => by
    have ih := pyJoin_replicate_blank (n + 1)
    have h2 : List.replicate (n + 2) "" = "" :: "" :: List.replicate n "" := by
      simp [List.replicate_succ]
    have h1 : List.replicate (n + 1) "" = "" :: List.replicate n "" := by
      simp [List.replicate_succ]
    rw [h2]
    rw [h1] at ih
    show ("" : String) ++ " " ++ pyJoin " " ("" :: List.replicate n "") = mkSpaces (n + 1)
    rw [ih]
    show ("" : String) ++ " " ++ mkSpaces n = mkSpaces (n + 1)
    have he : ("" : String) ++ " " = " " := by decide
    rw [he]
    rfl

theorem tpSleepStep_preserves (st : TState) (ev : TEvent) :
    (tpSleepStep st ev).frames = st.frames ∧
    (tpSleepStep st ev).stack_level = st.stack_level ∧
    (tpSleepStep st ev).profile = st.profile ∧
    (tpSleepStep st ev).mem_lines = st.mem_lines ∧
    (tpSleepStep st ev).stack_lines = st.stack_lines := by
  unfold tpSleepStep
  split
  · exact ⟨rfl, rfl, rfl, rfl, rfl⟩
  · split
    · split
      · exact ⟨rfl, rfl, rfl, rfl, rfl⟩
      · exact ⟨rfl, rfl, rfl, rfl, rfl⟩
    · exact ⟨rfl, rfl, rfl, rfl, rfl⟩

theorem pyInsert_length_int {κ α : Type} [DecidableEq κ] (l : List (κ × α)) (k : κ) (v : α)
    (n : Int) (h : (l.length : Int) ≤ n) : ((pyInsert l k v).length : Int) ≤ n + 1 := by
  have := pyInsert_length_le l k v
  omega

theorem depthInv_tpHandleIn (st : TState) (frame : PyFrame) (fid : Option Int)
    (name : Option String) (filename : Option String) (h : DepthInv st) :
    DepthInv (tpHandleIn st frame fid name filename) := by
  unfold DepthInv at h ⊢
  cases hst : st.stack <;> cases hm : st.mem <;> cases ht : st.times <;>
    simp only [tpHandleIn, takeNow, takeStamp, tpGetMemory, takeReading, hst, hm, ht,
      Bool.false_eq_true, if_false, if_true] <;>
    split <;>
    first
      | exact h
      | exact pyInsert_length_int _ _ _ _ h

theorem depthInv_tpHandleOut (st : TState) (frame : PyFrame) (fid : Option Int)
    (h : DepthInv st) : DepthInv (tpHandleOut st frame fid) := by
  unfold DepthInv at h ⊢
  cases hL : pyLookup st.frames (pyDefaultFid fid frame.fid) with
  | none =>
    simp only [tpHandleOut, hL]
    exact h
  | some v =>
    obtain ⟨mem_before, name, filename⟩ := v
    have hlt := pyLookup_some_erase_lt st.frames (pyDefaultFid fid frame.fid) _ hL
    cases hm : st.mem <;> cases ht : st.times <;>
      simp only [tpHandleOut, hL, hm, ht, tpGetMemory, takeReading, takeNow, takeStamp,
        Bool.false_eq_true, if_false, if_true] <;>
      omega

theorem depthInv_tpDispatch (st : TState) (ev : TEvent) (h : DepthInv st) :
    DepthInv (tpDispatch st ev) := by
  obtain ⟨fr, e, a⟩ := ev
  have hs := tpSleepStep_preserves st ⟨fr, e, a⟩
  have h' : DepthInv (tpSleepStep st ⟨fr, e, a⟩) := by
    unfold DepthInv at h ⊢
    rw [hs.1, hs.2.1]
    exact h
  cases e with
  | call =>
    dsimp only [tpDispatch]
    split
    · exact depthInv_tpHandleIn _ _ _ _ _ h'
    · exact h'
  | ret =>
    dsimp only [tpDispatch]
    split
    · exact depthInv_tpHandleOut _ _ _ h'
    · exact h'
  | exc =>
    dsimp only [tpDispatch]
    split
    · exact depthInv_tpHandleOut _ _ _ h'
    · exact h'
  | ccall =>
    cases a with
    | some c =>
      dsimp only [tpDispatch]
      split
      · exact depthInv_tpHandleIn _ _ _ _ _ h'
      · exact h'
    | none =>
      dsimp only [tpDispatch]
      split
      · exact h'
      · exact h'
  | cret =>
    dsimp only [tpDispatch]
    split
    · exact depthInv_tpHandleOut _ _ _ h'
    · exact h'
  | cexc =>
    dsimp only [tpDispatch]
    split
    · exact depthInv_tpHandleOut _ _ _ h'
    · exact h'

theorem depthInv_runEvents : ∀ (evs : List TEvent) (st : TState),
    DepthInv st → DepthInv (runEvents evs st)
  | [], _, h => h
  | e :: evs, st, h =>
    depthInv_runEvents evs (tpDispatch st e) (depthInv_tpDispatch st e h)

/-! ## Lemmas about the coordinator's dispatch -/

theorem forkStep_cases (env : ProcEnv) (st : ProcState) :
    forkStep env st = .ok st ∨
    forkStep env st = .errored st ∨
    forkStep env st = .stopped { st with disabled := true } ∨
    forkStep env st = .ok { st with threads := [], main_pid := env.pid } := by
  unfold forkStep
  split
  · split
    · split
      · right; left; rfl
      · right; right; right; rfl
    · right; right; left; rfl
  · left; rfl

theorem forkStep_same_pid (env : ProcEnv) (st : ProcState) (h : env.pid = st.main_pid) :
    forkStep env st = .ok st := by
  simp [forkStep, h]

theorem forkStep_stopped_disabled (env : ProcEnv) (st : ProcState) (st' : ProcState)
    (h : forkStep env st = .stopped st') : st'.disabled = true := by
  unfold forkStep at h
  split at h
  · split at h
    · split at h <;> simp at h
    · simp only [StepRes.stopped.injEq] at h
      subst h
      rfl
  · simp at h

theorem forkStep_not_stopped_of (env : ProcEnv) (st : ProcState)
    (h : env.pid = st.main_pid ∨ st.profile_forked = true) (st' : ProcState) :
    forkStep env st ≠ .stopped st' := by
  unfold forkStep
  by_cases hp : env.pid = st.main_pid
  · simp [hp]
  · have hf : st.profile_forked = true := h.resolve_left hp
    simp only [ne_eq, hp, not_false_eq_true, if_true, hf]
    split <;> simp

theorem sampleStep_not_stopped (env : ProcEnv) (st : ProcState) (st' : ProcState) :
    sampleStep env st ≠ .stopped st' := by
  unfold sampleStep
  split
  · split
    · split <;> simp
    · simp
  · simp

theorem threadStep_cases (env : ProcEnv) (st : ProcState) :
    threadStep env st = .errored st ∨
    ∃ thr, threadStep env st = .ok { st with threads := thr } := by
  unfold threadStep
  split
  · left; rfl
  · right
    rcases hL : pyLookup st.threads env.threadName with _ | t
    · exact ⟨_, rfl⟩
    · exact ⟨_, rfl⟩

theorem threadStep_not_stopped (env : ProcEnv) (st : ProcState) (st' : ProcState) :
    threadStep env st ≠ .stopped st' := by
  rcases threadStep_cases env st with h | ⟨thr, h⟩ <;> simp [h]

theorem threadStep_ok_threads (env : ProcEnv) (st : ProcState) (hf : env.failThread = false) :
    ∃ thr, threadStep env st = .ok { st with threads := thr } := by
  unfold threadStep
  simp only [hf, Bool.false_eq_true, if_false]
  rcases hL : pyLookup st.threads env.threadName with _ | t
  · exact ⟨_, rfl⟩
  · exact ⟨_, rfl⟩

theorem procRun_nil (st : ProcState) : procRun [] st = st := rfl

theorem procRun_cons (e : ProcEnv) (envs : List ProcEnv) (st : ProcState) :
    procRun (e :: envs) st = procRun envs (procDispatch e st).1 := rfl

theorem procRun_append (a b : List ProcEnv) (st : ProcState) :
    procRun (a ++ b) st = procRun b (procRun a st) := by
  unfold procRun
  exact List.foldl_append _ _ _ _

/-! ## Claim theorems -/

/-- Claim C1: `ProcessProfile._dispatch` never raises: its result is
either the live continuation, or `None` accompanied by a `disable()`
call; when the teardown condition (`getpid is None`) holds it disables
itself and returns no continuation; and in every non-teardown call whose
process identity is unchanged (or with forked profiling on), the result
is the live continuation — in particular whatever error the fork
handling, the sampling write or the collector creation/forwarding raises
is caught and discarded. -/
theorem c1_dispatch_error_boundary (env : ProcEnv) (st : ProcState) :
    ((procDispatch env st).2 = DispatchRet.cont ∨
      ((procDispatch env st).2 = DispatchRet.stop ∧ (procDispatch env st).1.disabled = true)) ∧
    (env.teardown = true →
      (procDispatch env st).2 = DispatchRet.stop ∧ (procDispatch env st).1.disabled = true) ∧
    (env.teardown = false → (env.pid = st.main_pid ∨ st.profile_forked = true) →
      (procDispatch env st).2 = DispatchRet.cont) := by
  refine ⟨?_, ?_, ?_⟩
  · unfold procDispatch
    split
    · right; exact ⟨rfl, rfl⟩
    · rcases hF : forkStep env st with stf | stf | stf
      · dsimp only
        rcases hS : sampleStep env stf with s1 | s1 | s1
        · dsimp only
          rcases hT : threadStep env s1 with t1 | t1 | t1
          · left; rfl
          · left; rfl
          · exact absurd hT (threadStep_not_stopped env s1 t1)
        · left; rfl
        · exact absurd hS (sampleStep_not_stopped env stf s1)
      · left; rfl
      · right
        exact ⟨rfl, forkStep_stopped_disabled env st stf hF⟩
  · intro hT
    unfold procDispatch
    rw [hT]
    exact ⟨rfl, rfl⟩
  · intro hT hOr
    unfold procDispatch
    rw [hT]
    rcases hF : forkStep env st with stf | stf | stf
    · dsimp only
      rcases hS : sampleStep env stf with s1 | s1 | s1
      · dsimp only
        rcases hTh : threadStep env s1 with t1 | t1 | t1
        · rfl
        · rfl
        · exact absurd hTh (threadStep_not_stopped env s1 t1)
      · rfl
      · exact absurd hS (sampleStep_not_stopped env stf s1)
    · rfl
    · exact absurd hF (forkStep_not_stopped_of env st hOr stf)

/-- Witness for C1 at concrete inputs: with both the sampling write and
the collector forwarding raising, dispatch still returns the live
continuation; under teardown it disables and returns no continuation. -/
theorem c1_dispatch_error_boundary_witness :
    (procDispatch failingEnv (mkProcessProfile 42 .both)).2 = DispatchRet.cont ∧
    ((procDispatch teardownEnv (mkProcessProfile 42 .both)).2 = DispatchRet.stop ∧
      (procDispatch teardownEnv (mkProcessProfile 42 .both)).1.disabled = true) :=
  ⟨(c1_dispatch_error_boundary failingEnv (mkProcessProfile 42 .both)).2.2 rfl (Or.inl rfl),
    (c1_dispatch_error_boundary teardownEnv (mkProcessProfile 42 .both)).2.1 rfl⟩

/-- Claim C2: on the single-thread sequence `enter(a.py:10:f)` at raw
memory 1000, `enter(a.py:11:g)` at 1010, `exit(g)` at 1030, `exit(f)` at
1040, with memory tracking on, timestamps off, zero accumulator and empty
filter, the collector emits exactly the two memory-delta lines
`a.py:11:g=>20` then `a.py:10:f=>40`, in that order. -/
theorem c2_memory_delta_scenario :
    (runEvents c2Events c2Init).mem_lines = ["a.py:11:g=>20", "a.py:10:f=>40"] ∧
    (runEvents c2Events c2Init).mem_lines.length = 2 ∧
    (runEvents c2Events c2Init).stack_lines = [] := by
  decide

/-- Claim C3: with sleep tracking enabled and raw readings
`100, 100, 150, 150, 170`, the blocking-trigger bracket (entry reading
100, exit reading 150) sets the accumulator to 50, and the subsequent
non-trigger call entered at raw 150 and exited at raw 170 reports memory
delta 20. -/
theorem c3_blocking_exclusion_scenario :
    (runEvents (c3Events.take 3) c3Init).sleep_accounting = 50 ∧
    (runEvents c3Events c3Init).sleep_accounting = 50 ∧
    (runEvents c3Events c3Init).mem_lines = ["a.py:20:f=>20"] := by
  decide

/-- Claim C5 (code bug): `ProcessProfile.trackSleeps(False)`, contrary to
its docstring, leaves the coordinator's sleep-tracking default and the
collector's sleep flag unchanged, and instead disables the
memory-tracking default and every collector's memory tracking. -/
theorem c5_trackSleeps_code_bug :
    (ppTrackSleeps c5Coord false).sleep = true ∧
    (ppTrackSleeps c5Coord false).mem = false ∧
    ((ppTrackSleeps c5Coord false).threads.map (fun p => (p.1, p.2.sleep_trak, p.2.mem))) =
      [("T1", true, false)] ∧
    c5Coord.sleep = true ∧ c5Coord.mem = true ∧
    (c5Coord.threads.map (fun p => (p.1, p.2.sleep_trak, p.2.mem))) = [("T1", true, true)] := by
  decide

/-- Counterexample to claim C6 as stated: with stack tracking on and
timestamps off, the enter of `g` happens at nesting depth 1 (under the
active frame of `f`), yet its trace line carries zero leading spaces,
not one. -/
theorem c6_indent_counterexample :
    (runEvents c6Events c6Init).stack_lines = ["a.py:10:f", "a.py:11:g"] ∧
    "a.py:11:g" ≠ mkSpaces 1 ++ "a.py:11:g" := by
  decide

/-- Claim C6 as amended: the trace line emitted for an unfiltered enter
with stack tracking enabled is indented by `max(d − 1, 0)` spaces, where
`d` is the nesting depth at entry (the source joins `d` empty strings
with a single-space separator, producing `d − 1` spaces). -/
theorem c6_indent_amended (st : TState) (frame : PyFrame)
    (hstack : st.stack = true)
    (hfilt : pyStartsWith frame.filename st.file_filter = true) :
    (tpHandleIn st frame none none none).stack_lines =
      st.stack_lines ++
        [mkSpaces (st.stack_level.toNat - 1) ++
          (if st.times then st.stamps.headD "0" ++ "#" else "") ++
          frame.filename ++ ":" ++ toString frame.lineno ++ ":" ++ frame.funcname] := by
  cases ht : st.times <;> cases hm : st.mem <;>
    simp [tpHandleIn, pyDefaultStr, pyDefaultFid, takeNow, takeStamp, tpGetMemory,
      takeReading, hstack, hfilt, ht, hm, pyJoin_replicate_blank]

/-- Witness for C6 amended: the second enter of the two-enter scenario,
taken at depth 1, is emitted with zero spaces of indentation. -/
theorem c6_indent_amended_witness :
    (tpHandleIn (runEvents (c6Events.take 1) c6Init) ⟨2, "a.py", "g", 11⟩ none none none).stack_lines =
      (runEvents (c6Events.take 1) c6Init).stack_lines ++
        [mkSpaces ((runEvents (c6Events.take 1) c6Init).stack_level.toNat - 1) ++
          (if (runEvents (c6Events.take 1) c6Init).times then
            (runEvents (c6Events.take 1) c6Init).stamps.headD "0" ++ "#" else "") ++
          "a.py" ++ ":" ++ toString (11 : Int) ++ ":" ++ "g"] :=
  c6_indent_amended (runEvents (c6Events.take 1) c6Init) ⟨2, "a.py", "g", 11⟩ (by decide) (by decide)

theorem tpHandleOut_absent_noop (st : TState) (frame : PyFrame) (fid : Option Int)
    (h : pyLookup st.frames (pyDefaultFid fid frame.fid) = none) :
    tpHandleOut st frame fid = st := by
  simp only [tpHandleOut, h]

theorem tpDispatch_exit_absent (st : TState) (ev : TEvent)
    (hexit : ev.event = .ret ∨ ev.event = .exc ∨ ev.event = .cret ∨ ev.event = .cexc)
    (habsent : pyLookup st.frames (exitCallId ev) = none) :
    tpDispatch st ev = tpSleepStep st ev := by
  obtain ⟨fr, e, a⟩ := ev
  have hfr := (tpSleepStep_preserves st ⟨fr, e, a⟩).1
  rcases hexit with he | he | he | he <;> cases he <;> dsimp only [tpDispatch] <;> split
  · exact tpHandleOut_absent_noop _ _ _ (by rw [hfr]; exact habsent)
  · rfl
  · exact tpHandleOut_absent_noop _ _ _ (by rw [hfr]; exact habsent)
  · rfl
  · exact tpHandleOut_absent_noop _ _ _ (by rw [hfr]; exact habsent)
  · rfl
  · exact tpHandleOut_absent_noop _ _ _ (by rw [hfr]; exact habsent)
  · rfl

/-- Counterexample to claim C7 as stated: a `c_return` closing an
in-flight blocking-trigger bracket whose (filtered) enter never reached
the frame map is an exit event with an unmatched call identity, yet
processing it adds the bracket's delta to the accumulator (0 becomes 60)
and empties the side table — the thread state is not left unchanged. -/
theorem c7_unmatched_exit_counterexample :
    pyLookup c7CEMid.frames (exitCallId c7CEExit) = none ∧
    c7CEMid.sleep_accounting = 0 ∧
    c7CEMid.sleep_frames = [(7, 100)] ∧
    (tpDispatch c7CEMid c7CEExit).sleep_accounting = 60 ∧
    (tpDispatch c7CEMid c7CEExit).sleep_frames = [] := by
  decide

/-- Claim C7 as amended: an exit or exception event whose effective call
identity is absent from the thread's frame map writes nothing to either
stream, raises no error, and leaves the frame map and the nesting-depth
counter unchanged; the whole thread state is unchanged except when sleep
tracking is on and the event is a `c_return`/`c_exception` closing an
in-flight blocking-trigger bracket (its frame id is in the side table),
in which case the dispatch prologue still updates the accumulator and
drops the side-table entry. -/
theorem c7_unmatched_exit_amended (st : TState) (ev : TEvent)
    (hexit : ev.event = .ret ∨ ev.event = .exc ∨ ev.event = .cret ∨ ev.event = .cexc)
    (habsent : pyLookup st.frames (exitCallId ev) = none) :
    (tpDispatch st ev).frames = st.frames ∧
    (tpDispatch st ev).stack_level = st.stack_level ∧
    (tpDispatch st ev).mem_lines = st.mem_lines ∧
    (tpDispatch st ev).stack_lines = st.stack_lines ∧
    ((st.sleep_trak = true → (ev.event = .cret ∨ ev.event = .cexc) →
        pyLookup st.sleep_frames ev.frame.fid = none) →
      tpDispatch st ev = st) := by
  have hD := tpDispatch_exit_absent st ev hexit habsent
  have hP := tpSleepStep_preserves st ev
  rw [hD]
  refine ⟨hP.1, hP.2.1, hP.2.2.2.1, hP.2.2.2.2, ?_⟩
  intro hnb
  unfold tpSleepStep
  cases hsl : st.sleep_trak with
  | false => simp
  | true =>
    rcases hexit with he | he | he | he <;> rw [he] <;> simp
    · intro hS
      rw [hnb hsl (Or.inl he)] at hS
      simp at hS
    · intro hS
      rw [hnb hsl (Or.inr he)] at hS
      simp at hS

/-- Witness for C7 amended: a managed exit for identity 5 on a fresh
collector (empty frame map) leaves the whole state untouched. -/
theorem c7_unmatched_exit_amended_witness :
    tpDispatch c7St ⟨⟨5, "a.py", "f", 10⟩, .ret, none⟩ = c7St :=
  (c7_unmatched_exit_amended c7St ⟨⟨5, "a.py", "f", 10⟩, .ret, none⟩ (Or.inl rfl)
      (by decide)).2.2.2.2 (fun _ h => absurd h (by decide))

/-- Counterexample to claim C8 as stated: at underlying address 0 the
native call identity coincides with the managed call identity (both are
0 — the negation of 0 is falsy, so `_handleIn` falls back to `id(frame)`),
so the two identity spaces are not disjoint for every possible address. -/
theorem c8_identity_counterexample :
    nativeCallId 0 = managedCallId 0 := by
  decide

/-- Claim C8 as amended: for every positive native address and every
nonnegative managed address the two identity spaces are disjoint (the
only collision is at address 0). -/
theorem c8_identity_amended (a b : Int) (ha : 0 < a) (hb : 0 ≤ b) :
    nativeCallId a ≠ managedCallId b := by
  unfold nativeCallId managedCallId pyDefaultFid
  have hne : ¬(-a = 0) := by omega
  dsimp only
  rw [if_pos hne]
  omega

/-- Witness for C8 amended: native address 4 and managed address 4 get
distinct identities. -/
theorem c8_identity_amended_witness :
    nativeCallId 4 ≠ managedCallId 4 :=
  c8_identity_amended 4 4 (by decide) (by decide)

/-- Counterexample to claim C9 as stated: when closing the memory stream
raises `IOError`, `closeStreams` swallows the error but returns before
touching the stack stream — the stack stream's `close()` is never
invoked, so the error does prevent the stack stream from being closed. -/
theorem c9_close_counterexample :
    (closeStreams c9St).mem_stream = some ⟨true, true, false⟩ ∧
    (closeStreams c9St).stack_stream = some ⟨false, false, false⟩ ∧
    (closeStreams c9St).stack_stream.map StreamH.attempted ≠ some true := by
  decide

/-- Claim C9 as amended: `closeStreams` closes the memory stream and then
the stack stream, swallowing `IOError`; but an `IOError` while closing
the memory stream aborts the block, leaving the stack stream untouched —
the stack stream is closed exactly when the memory stream is absent or
closes without error. -/
theorem c9_close_amended (st : Streams) :
    (∀ m, st.mem_stream = some m → m.failClose = true →
      (closeStreams st).mem_stream = some { m with attempted := true } ∧
      (closeStreams st).stack_stream = st.stack_stream) ∧
    ((st.mem_stream = none ∨ (∃ m, st.mem_stream = some m ∧ m.failClose = false)) →
      ∀ s, st.stack_stream = some s →
      (closeStreams st).stack_stream = some ((closeOne s).1)) := by
  constructor
  · intro m hm hfail
    simp [closeStreams, hm, closeOne, hfail]
  · intro hok s hs
    rcases hok with hnone | ⟨m, hm, hfail⟩
    · simp [closeStreams, hnone, closeStackStream, hs]
    · simp [closeStreams, hm, closeOne, hfail, closeStackStream, hs]

/-- Witness for C9 amended, at concrete inputs: with a failing memory
close the stack stream is left untouched, and with no memory stream the
stack stream is closed. -/
theorem c9_close_amended_witness :
    ((closeStreams c9St).mem_stream = some ⟨true, true, false⟩ ∧
      (closeStreams c9St).stack_stream = c9St.stack_stream) ∧
    (closeStreams ⟨none, some ⟨false, false, false⟩⟩).stack_stream =
      some ((closeOne ⟨false, false, false⟩).1) :=
  ⟨(c9_close_amended c9St).1 ⟨true, false, false⟩ rfl rfl,
    (c9_close_amended ⟨none, some ⟨false, false, false⟩⟩).2 (Or.inl rfl)
      ⟨false, false, false⟩ rfl⟩

/-- Claim C10: for every event sequence processed by a fresh collector,
the nesting-depth counter dominates the number of active frames, and in
particular never goes negative. -/
theorem c10_depth_invariant (evs : List TEvent) (profile : ProfileMode)
    (track_memory track_times track_stack track_sleep : Bool) (filter : String)
    (readings : List Int) (stamps : List String) :
    ((runEvents evs (mkThreadProfile profile track_memory track_times track_stack
        track_sleep filter readings stamps)).frames.length : Int) ≤
      (runEvents evs (mkThreadProfile profile track_memory track_times track_stack
        track_sleep filter readings stamps)).stack_level ∧
    0 ≤ (runEvents evs (mkThreadProfile profile track_memory track_times track_stack
        track_sleep filter readings stamps)).stack_level := by
  have h := depthInv_runEvents evs
    (mkThreadProfile profile track_memory track_times track_stack track_sleep filter
      readings stamps)
    (by simp [DepthInv, mkThreadProfile])
  unfold DepthInv at h
  constructor
  · exact h
  · have : (0 : Int) ≤ ((runEvents evs (mkThreadProfile profile track_memory track_times
        track_stack track_sleep filter readings stamps)).frames.length : Int) :=
      Int.natCast_nonneg _
    omega


/-! ## Sampling cadence (claim C4) -/

theorem procDispatch_benign (env : ProcEnv) (st : ProcState)
    (ht : env.teardown = false) (hp : env.pid = st.main_pid)
    (hs : env.failSample = false) (hf : env.failThread = false) :
    (procDispatch env st).1.main_pid = st.main_pid ∧
    (procDispatch env st).1.proc_mem_freq = st.proc_mem_freq ∧
    (procDispatch env st).1.proc_mem_check =
      (if freqTruthy st.proc_mem_freq then (st.proc_mem_check + 1) % st.proc_mem_freq.getD 1
        else st.proc_mem_check) ∧
    (procDispatch env st).1.proc_lines.length =
      st.proc_lines.length +
        (if freqTruthy st.proc_mem_freq = true ∧ st.proc_mem_check = 0 then 1 else 0) := by
  have hFork : forkStep env st = .ok st := forkStep_same_pid env st hp
  unfold procDispatch
  rw [ht]
  simp only [Bool.false_eq_true, if_false]
  rw [hFork]
  dsimp only
  by_cases hq : freqTruthy st.proc_mem_freq = true
  · by_cases hc : st.proc_mem_check = 0
    · have hS : sampleStep env st = .ok { st with
          proc_lines := st.proc_lines ++
            [(if st.times then env.stamp ++ "#" else "") ++ toString env.memReading],
          proc_mem_check := (st.proc_mem_check + 1) % st.proc_mem_freq.getD 1 } := by
        unfold sampleStep
        simp [hq, hc, hs]
      rw [hS]
      dsimp only
      obtain ⟨thr, hT⟩ := threadStep_ok_threads env _ hf
      rw [hT]
      simp [hq, hc]
    · have hS : sampleStep env st = .ok { st with
          proc_mem_check := (st.proc_mem_check + 1) % st.proc_mem_freq.getD 1 } := by
        unfold sampleStep
        simp [hq, hc]
      rw [hS]
      dsimp only
      obtain ⟨thr, hT⟩ := threadStep_ok_threads env _ hf
      rw [hT]
      simp [hq, hc]
  · have hS : sampleStep env st = .ok st := by
      unfold sampleStep
      simp [hq]
    rw [hS]
    dsimp only
    obtain ⟨thr, hT⟩ := threadStep_ok_threads env _ hf
    rw [hT]
    simp [hq]

theorem c4_window_tail : ∀ (envs : List ProcEnv) (N c : Nat) (st : ProcState),
    1 ≤ c → c < N →
    (∀ e ∈ envs, e.teardown = false ∧ e.pid = st.main_pid ∧ e.failSample = false ∧
      e.failThread = false) →
    st.proc_mem_freq = some N → st.proc_mem_check = c →
    c + envs.length = N →
    (procRun envs st).proc_lines.length = st.proc_lines.length ∧
    (procRun envs st).proc_mem_check = 0 ∧
    (procRun envs st).main_pid = st.main_pid ∧
    (procRun envs st).proc_mem_freq = some N := by
  intro envs
  induction envs with
  | nil =>
    intro N c st h1 h2 _ hfreq hcheck hlen
    exfalso
    simp at hlen
    omega
  | cons e es ih =>
    intro N c st h1 h2 hben hfreq hcheck hlen
    have hbe := hben e (List.mem_cons_self e es)
    have hB := procDispatch_benign e st hbe.1 hbe.2.1 hbe.2.2.1 hbe.2.2.2
    rw [procRun_cons]
    have hq : freqTruthy st.proc_mem_freq = true := by
      rw [hfreq]
      simp [freqTruthy]
      omega
    have hmain : (procDispatch e st).1.main_pid = st.main_pid := hB.1
    have hfreq2 : (procDispatch e st).1.proc_mem_freq = some N := by
      rw [hB.2.1, hfreq]
    have hcheck2 : (procDispatch e st).1.proc_mem_check = (c + 1) % N := by
      rw [hB.2.2.1, if_pos hq, hfreq, hcheck]
      rfl
    have hno : ¬(freqTruthy st.proc_mem_freq = true ∧ st.proc_mem_check = 0) := by
      rintro ⟨_, h0⟩
      omega
    have hlines : (procDispatch e st).1.proc_lines.length = st.proc_lines.length := by
      rw [hB.2.2.2, if_neg hno]
      rfl
    have hben2 : ∀ e2 ∈ es, e2.teardown = false ∧
        e2.pid = (procDispatch e st).1.main_pid ∧ e2.failSample = false ∧
        e2.failThread = false := by
      intro e2 he2
      have hx := hben e2 (List.mem_cons_of_mem _ he2)
      rw [hmain]
      exact hx
    simp only [List.length_cons] at hlen
    by_cases hcN : c + 1 < N
    · have hcheck3 : (procDispatch e st).1.proc_mem_check = c + 1 := by
        rw [hcheck2]
        exact Nat.mod_eq_of_lt hcN
      have hlen2 : (c + 1) + es.length = N := by omega
      obtain ⟨l, ch, mp, fr⟩ := ih N (c + 1) (procDispatch e st).1 (by omega) hcN hben2
        hfreq2 hcheck3 hlen2
      refine ⟨by rw [l, hlines], ch, by rw [mp, hmain], fr⟩
    · have hceq : c + 1 = N := by omega
      have hes : es = [] := List.length_eq_zero.mp (by omega)
      subst hes
      rw [procRun_nil]
      refine ⟨hlines, ?_, hmain, hfreq2⟩
      rw [hcheck2, hceq]
      exact Nat.mod_self N

theorem c4_window (envs : List ProcEnv) (N : Nat) (st : ProcState)
    (hN : 1 ≤ N)
    (hben : ∀ e ∈ envs, e.teardown = false ∧ e.pid = st.main_pid ∧ e.failSample = false ∧
      e.failThread = false)
    (hfreq : st.proc_mem_freq = some N) (hcheck : st.proc_mem_check = 0)
    (hlen : envs.length = N) :
    (procRun envs st).proc_lines.length = st.proc_lines.length + 1 ∧
    (procRun envs st).proc_mem_check = 0 ∧
    (procRun envs st).main_pid = st.main_pid ∧
    (procRun envs st).proc_mem_freq = some N := by
  cases envs with
  | nil =>
    exfalso
    simp at hlen
    omega
  | cons e es =>
    have hbe := hben e (List.mem_cons_self e es)
    have hB := procDispatch_benign e st hbe.1 hbe.2.1 hbe.2.2.1 hbe.2.2.2
    rw [procRun_cons]
    have hq : freqTruthy st.proc_mem_freq = true := by
      rw [hfreq]
      simp [freqTruthy]
      omega
    have hmain : (procDispatch e st).1.main_pid = st.main_pid := hB.1
    have hfreq2 : (procDispatch e st).1.proc_mem_freq = some N := by
      rw [hB.2.1, hfreq]
    have hcheck2 : (procDispatch e st).1.proc_mem_check = 1 % N := by
      rw [hB.2.2.1, if_pos hq, hfreq, hcheck]
      rfl
    have hlines : (procDispatch e st).1.proc_lines.length = st.proc_lines.length + 1 := by
      rw [hB.2.2.2, if_pos ⟨hq, hcheck⟩]
    have hben2 : ∀ e2 ∈ es, e2.teardown = false ∧
        e2.pid = (procDispatch e st).1.main_pid ∧ e2.failSample = false ∧
        e2.failThread = false := by
      intro e2 he2
      have hx := hben e2 (List.mem_cons_of_mem _ he2)
      rw [hmain]
      exact hx
    simp only [List.length_cons] at hlen
    rcases Nat.lt_or_ge 1 N with h2 | h2
    · have hcheck3 : (procDispatch e st).1.proc_mem_check = 1 := by
        rw [hcheck2]
        exact Nat.mod_eq_of_lt h2
      have hlen2 : 1 + es.length = N := by omega
      obtain ⟨l, ch, mp, fr⟩ := c4_window_tail es N 1 (procDispatch e st).1 (le_refl 1) h2
        hben2 hfreq2 hcheck3 hlen2
      refine ⟨by rw [l, hlines], ch, by rw [mp, hmain], fr⟩
    · have hN1 : N = 1 := by omega
      have hes : es = [] := List.length_eq_zero.mp (by omega)
      subst hes
      rw [procRun_nil]
      refine ⟨hlines, ?_, hmain, hfreq2⟩
      rw [hcheck2, hN1]

theorem c4_blocks : ∀ (m : Nat) (envs : List ProcEnv) (N : Nat) (st : ProcState),
    1 ≤ N →
    (∀ e ∈ envs, e.teardown = false ∧ e.pid = st.main_pid ∧ e.failSample = false ∧
      e.failThread = false) →
    st.proc_mem_freq = some N → st.proc_mem_check = 0 →
    envs.length = m * N →
    (procRun envs st).proc_lines.length = st.proc_lines.length + m ∧
    (procRun envs st).proc_mem_check = 0 ∧
    (procRun envs st).main_pid = st.main_pid ∧
    (procRun envs st).proc_mem_freq = some N := by
  intro m
  induction m with
  | zero =>
    intro envs N st hN hben hfreq hc hlen
    have hnil : envs = [] := List.length_eq_zero.mp (by simpa using hlen)
    subst hnil
    rw [procRun_nil]
    exact ⟨by omega, hc, rfl, hfreq⟩
  | succ m ih =>
    intro envs N st hN hben hfreq hc hlen
    rw [Nat.succ_mul] at hlen
    have hlenN : N ≤ envs.length := by omega
    have hsplit : envs.take N ++ envs.drop N = envs := List.take_append_drop N envs
    rw [← hsplit, procRun_append]
    have htake_len : (envs.take N).length = N := by
      rw [List.length_take]
      omega
    have hben_take : ∀ e ∈ envs.take N, e.teardown = false ∧ e.pid = st.main_pid ∧
        e.failSample = false ∧ e.failThread = false :=
      fun e he => hben e (List.take_subset _ _ he)
    obtain ⟨l1, ch1, mp1, fr1⟩ := c4_window (envs.take N) N st hN hben_take hfreq hc htake_len
    have hben_drop : ∀ e ∈ envs.drop N, e.teardown = false ∧
        e.pid = (procRun (envs.take N) st).main_pid ∧ e.failSample = false ∧
        e.failThread = false := by
      intro e he
      have hx := hben e (List.drop_subset _ _ he)
      rw [mp1]
      exact hx
    have hdrop_len : (envs.drop N).length = m * N := by
      rw [List.length_drop]
      omega
    obtain ⟨l2, ch2, mp2, fr2⟩ := ih (envs.drop N) N (procRun (envs.take N) st) hN hben_drop
      fr1 ch1 hdrop_len
    refine ⟨?_, ch2, by rw [mp2, mp1], fr2⟩
    rw [l2, l1]
    omega

theorem procDispatch_no_freq (env : ProcEnv) (st : ProcState)
    (h : freqTruthy st.proc_mem_freq = false) :
    (procDispatch env st).1.proc_lines = st.proc_lines ∧
    (procDispatch env st).1.proc_mem_freq = st.proc_mem_freq := by
  unfold procDispatch
  split
  · exact ⟨rfl, rfl⟩
  · rcases forkStep_cases env st with h1 | h1 | h1 | h1
    · rw [h1]
      dsimp only
      have hS : sampleStep env st = .ok st := by
        unfold sampleStep
        simp [h]
      rw [hS]
      dsimp only
      rcases threadStep_cases env st with h2 | ⟨thr, h2⟩
      · rw [h2]
        exact ⟨rfl, rfl⟩
      · rw [h2]
        exact ⟨rfl, rfl⟩
    · rw [h1]
      exact ⟨rfl, rfl⟩
    · rw [h1]
      exact ⟨rfl, rfl⟩
    · rw [h1]
      dsimp only
      have hS : sampleStep env { st with threads := [], main_pid := env.pid } =
          .ok { st with threads := [], main_pid := env.pid } := by
        unfold sampleStep
        simp [h]
      rw [hS]
      dsimp only
      rcases threadStep_cases env { st with threads := [], main_pid := env.pid } with
        h2 | ⟨thr, h2⟩
      · rw [h2]
        exact ⟨rfl, rfl⟩
      · rw [h2]
        exact ⟨rfl, rfl⟩

theorem procRun_no_freq : ∀ (envs : List ProcEnv) (st : ProcState),
    freqTruthy st.proc_mem_freq = false →
    (procRun envs st).proc_lines = st.proc_lines
  | [], _, _ => rfl
  | e :: envs, st, h => by
    rw [procRun_cons]
    have hD := procDispatch_no_freq e st h
    have h2 : freqTruthy (procDispatch e st).1.proc_mem_freq = false := by
      rw [hD.2]
      exact h
    rw [procRun_no_freq envs _ h2, hD.1]

/-- Claim C4: with a sampling cadence `N ≥ 1` (set via
`setProcessMemoryFrequence`) and the counter at its initial value,
dispatching `m * N` benign events writes exactly `m` process-memory
lines — one line per `N` dispatched events; with cadence `0` or `None`,
no dispatch sequence whatsoever ever writes a process-memory line. -/
theorem c4_sampling_cadence :
    (∀ (N m : Nat) (envs : List ProcEnv) (st : ProcState),
      1 ≤ N →
      (∀ e ∈ envs, e.teardown = false ∧ e.pid = st.main_pid ∧
        e.failSample = false ∧ e.failThread = false) →
      st.proc_mem_freq = some N →
      st.proc_mem_check = 0 →
      envs.length = m * N →
      (procRun envs st).proc_lines.length = st.proc_lines.length + m) ∧
    (∀ (envs : List ProcEnv) (st : ProcState),
      st.proc_mem_freq = some 0 ∨ st.proc_mem_freq = none →
      (procRun envs st).proc_lines = st.proc_lines) := by
  constructor
  · intro N m envs st hN hben hfreq hc hlen
    exact (c4_blocks m envs N st hN hben hfreq hc hlen).1
  · intro envs st h
    apply procRun_no_freq
    rcases h with h | h <;> simp [freqTruthy, h]

/-- Witness for C4 at concrete inputs: cadence 2 over four benign events
yields exactly two lines, and cadence `None` yields none (even with a
failing event in the stream). -/
theorem c4_sampling_cadence_witness :
    (procRun [benignEnv, benignEnv, benignEnv, benignEnv]
      (ppSetProcessMemoryFrequence (mkProcessProfile 42 .both) (some 2))).proc_lines.length =
      (ppSetProcessMemoryFrequence (mkProcessProfile 42 .both) (some 2)).proc_lines.length + 2 ∧
    (procRun [benignEnv, failingEnv]
      (ppSetProcessMemoryFrequence (mkProcessProfile 42 .both) none)).proc_lines =
      (ppSetProcessMemoryFrequence (mkProcessProfile 42 .both) none).proc_lines :=
  ⟨c4_sampling_cadence.1 2 2 [benignEnv, benignEnv, benignEnv, benignEnv]
      (ppSetProcessMemoryFrequence (mkProcessProfile 42 .both) (some 2)) (by decide)
      (by decide) rfl rfl (by decide),
    c4_sampling_cadence.2 [benignEnv, failingEnv]
      (ppSetProcessMemoryFrequence (mkProcessProfile 42 .both) none) (Or.inr rfl)⟩

end ThreadGraph
